import Mathlib

/-!
# git-rs pack store: a shallow embedding of `src/stores/pack.rs`

This file embeds the pack-record decoder of the git-rs repository
(`Store::read_bounds` and `Store::get` in `src/stores/pack.rs`) as executable
Lean functions over byte lists, and proves or refutes the frozen claims about
that code.

Modelling conventions:
* The pack source is a `List Nat` of bytes; `seek(start)` + `take(end - start)`
  becomes `record_stream`.
* Every fallible step returns `Except Err _`; `read_exact` on a short stream
  fails (the `std::io` unexpected-EOF error that `?` propagates).
* Sizes and offsets are unbounded naturals.  The source uses `u64`, which
  agrees with the model whenever every intermediate value stays below `2 ^ 64`
  and every shift amount stays below 64; the one place where `u64` semantics
  depart from naturals on inputs the claims are about — the unchecked
  `start - offset` in the offset-delta branch, which underflows when
  `offset > start` (a panic in a debug build, a wrap-around in release) — is
  modelled explicitly as the `Err.subUnderflow` outcome.
* The recursion of `read_bounds` into itself is bounded by an explicit `fuel`
  argument (the source recurses without a bound); `Err.outOfFuel` marks
  exhaustion of that artificial bound and corresponds to no behaviour of the
  source.
-/

namespace GitRs

/-- The four public object kinds (`crate::objects::Type`), as consumed by the
REF_DELTA branch of `read_bounds` and produced by `Store::get`. -/
inductive ObjectType where
  | commit
  | tree
  | blob
  | tag
deriving DecidableEq, Repr

/-- Outcomes of a decode step.  `corruptedPackfile` and `badLooseObject` are
the explicit `ErrorKind` values returned in `pack.rs`; `shortRead` is the
failure of a checked `read_exact` on a short stream, propagated by `?`;
`subUnderflow` marks the `u64` underflow committed by `start - offset` when
`offset > start` (line 120); `outOfFuel` is the artificial recursion bound of
the model. -/
inductive Err where
  | shortRead
  | corruptedPackfile
  | badLooseObject
  | subUnderflow
  | outOfFuel
deriving DecidableEq, Repr

/-- A 20-byte object identifier (`crate::id::Id`), kept as its raw bytes. -/
def Oid : Type := List Nat

/-- The lazily composed reader a resolution returns: a `DeflateDecoder` over
the remaining record bytes, a `DeltaDecoder` over an (eagerly produced)
instruction buffer and a base reader, or an opaque stream supplied by the
`get_object` callback. -/
inductive Reader where
  | deflate (compressed : List Nat)
  | delta (instructions : List Nat) (base : Reader)
  | external (bytes : List Nat)
deriving DecidableEq, Repr

/-- `type GetObject = Fn(&Id) -> Result<Option<(Type, Box<Read>)>>`. -/
def GetObject : Type := Oid → Except Err (Option (ObjectType × Reader))

/-- The decompression collaborator standing for
`DeflateDecoder::read_to_end`: from the remaining compressed bytes it
produces the buffer filled so far and whether decompression succeeded (on a
malformed or truncated stream `read_to_end` can fill part of the buffer and
then return an error). -/
def Inflate : Type := List Nat → List Nat × Bool

/-- Lines 49–52: re-open the pack, `seek(SeekFrom::Start(start))`, then
`.take(end - start)`: the bounded byte stream of one record. -/
def record_stream (pack : List Nat) (start end_ : Nat) : List Nat :=
  (pack.drop start).take (end_ - start)

/-- `read_exact` on an `n`-byte buffer: all-or-nothing; a short stream is an
error and consumes nothing observable. -/
def read_exact (n : Nat) (s : List Nat) : Except Err (List Nat × List Nat) :=
  if n ≤ s.length then .ok (s.take n, s.drop n) else .error .shortRead

/-- Lines 66–76: the header loop.  While the previously read byte's
continuation bit (`byte & 0x80`) is set, read one more byte and push its low
7 bits onto `size_vec`; reading past the bounded stream fails. -/
def collect_size (continuation : Nat) (size_vec : List Nat) :
    List Nat → Except Err (List Nat × List Nat)
  | [] =>
    if continuation < 1 then .ok (size_vec, []) else .error .shortRead
  | byte :: rest =>
    if continuation < 1 then .ok (size_vec, byte :: rest)
    else collect_size (byte &&& 0x80) (size_vec ++ [byte &&& 0x7f]) rest

/-- Lines 84–90: the accumulation loop.  `size_vec.pop()` removes the LAST
element, so the walk is over the reversed vector; `len` carries
`size_vec.len()` before the pop, and each popped byte is OR-ed in shifted by
`4 + 7 * (count - size_vec.len())` evaluated after the pop. -/
def accum_size (count : Nat) : Nat → Nat → List Nat → Nat
  | size, _, [] => size
  | size, len, next :: rest =>
    accum_size count (size ||| (next <<< (4 + 7 * (count - (len - 1))))) (len - 1) rest

/-- Lines 79–90: seed `size` with the last pushed byte (`size_vec.pop()`,
empty vector being `CorruptedPackfile`), then run the accumulation loop over
the remaining bytes, popped from the end. -/
def decode_size (size_vec : List Nat) : Except Err Nat :=
  match size_vec.reverse with
  | [] => .error .corruptedPackfile
  | last :: rest => .ok (accum_size size_vec.length last (size_vec.length - 1) rest)

/-- Lines 54–90: the header decoder.  Byte 0 contributes the continuation
flag (bit 7), `type_flag` (bits 6–4) and the first size nibble (bits 3–0);
further bytes are read while the continuation bit stays set, then the size is
accumulated.  Returns `(type_flag, size, rest of the bounded stream)`. -/
def read_header (s : List Nat) : Except Err (Nat × Nat × List Nat) :=
  match s with
  | [] => .error .shortRead
  | byte :: rest =>
    match collect_size (byte &&& 0x80) [byte &&& 0x0f] rest with
    | .error e => .error e
    | .ok (size_vec, object_stream) =>
      match decode_size size_vec with
      | .error e => .error e
      | .ok size => .ok ((byte &&& 0x70) >>> 4, size, object_stream)

/-- Lines 105–112: the offset loop.  While the previously read byte's bit 7
is set: `offset += 1; offset <<= 7;` read one byte; `offset += byte & 0x7F`. -/
def read_offset_loop (offset byte : Nat) : List Nat → Except Err (Nat × List Nat)
  | [] =>
    if byte &&& 0x80 > 0 then .error .shortRead else .ok (offset, [])
  | b :: rest =>
    if byte &&& 0x80 > 0 then
      let o1 := offset + 1
      let o2 := o1 <<< 7
      let o3 := o2 + (b &&& 0x7f)
      read_offset_loop o3 b rest
    else .ok (offset, b :: rest)

/-- Lines 100–112: read the first offset byte (`offset = byte & 0x7F`), then
run the offset loop. -/
def read_offset (s : List Nat) : Except Err (Nat × List Nat) :=
  match s with
  | [] => .error .shortRead
  | byte :: rest => read_offset_loop (byte &&& 0x7f) byte rest

/-- Lines 140–145: the `Type` → raw-tag mapping of the REF_DELTA branch. -/
def type_code : ObjectType → Nat
  | .commit => 1
  | .tree => 2
  | .blob => 3
  | .tag => 4

/-- Modelled from the spec: `crate::delta::{OFS_DELTA, REF_DELTA}` is not
under `src/`.  §1 and §6 identify the archive as the well-known pack format,
whose offset-delta tag is 6. -/
def OFS_DELTA : Nat := 6

/-- Modelled from the spec: `crate::delta::REF_DELTA` is not under `src/`;
the well-known pack format's reference-delta tag is 7. -/
def REF_DELTA : Nat := 7

/-- Lines 48–156: `Store::read_bounds`.  Decode the header of the record at
`[start, end_)`, then dispatch on `type_flag`: the `0...4` literal branch
(which accepts tag 0 as well as the four object kinds), the OFS_DELTA branch
(decode the relative offset, eagerly decompress the instruction buffer —
NOTE: line 118 discards the `Result` of `read_to_end`, mirrored here by
keeping only the first component of `inflate` — then recurse at
`start - offset`, a `u64` subtraction that underflows when `offset > start`),
the REF_DELTA branch (20-byte base id, eager decompression with the `Result`
of line 137 equally discarded, then the `get_object` callback, whose `None`
is `CorruptedPackfile`), and the default `BadLooseObject` arm. -/
def read_bounds (pack : List Nat) (inflate : Inflate) (get_object : GetObject) :
    Nat → Nat → Nat → Except Err (Nat × Reader)
  | 0, _, _ => .error .outOfFuel
  | fuel + 1, start, end_ =>
    match read_header (record_stream pack start end_) with
    | .error e => .error e
    | .ok (type_flag, _size, object_stream) =>
      if type_flag ≤ 4 then
        match read_exact 2 object_stream with
        | .error e => .error e
        | .ok (_zlib_header, rest) => .ok (type_flag, .deflate rest)
      else if type_flag = OFS_DELTA then
        match read_offset object_stream with
        | .error e => .error e
        | .ok (offset, s1) =>
          match read_exact 2 s1 with
          | .error e => .error e
          | .ok (_zlib_header, s2) =>
            let instructions := (inflate s2).1
            if start < offset then .error .subUnderflow
            else
              match read_bounds pack inflate get_object fuel (start - offset) start with
              | .error e => .error e
              | .ok (base_type, base_stream) =>
                .ok (base_type, .delta instructions base_stream)
      else if type_flag = REF_DELTA then
        match read_exact 20 object_stream with
        | .error e => .error e
        | .ok (ref_bytes, s1) =>
          match read_exact 2 s1 with
          | .error e => .error e
          | .ok (_zlib_header, s2) =>
            let instructions := (inflate s2).1
            match get_object ref_bytes with
            | .error e => .error e
            | .ok none => .error .corruptedPackfile
            | .ok (some (t, base_stream)) =>
              .ok (type_code t, .delta instructions base_stream)
      else .error .badLooseObject

/-- Lines 158–173: `Store::get`.  Look the id up in the index
(`Index::get_bounds`, modelled as a function to an optional byte range);
absence is `Ok(None)`.  Otherwise resolve the record and map the raw tag to
the public object type, any other tag being `CorruptedPackfile`. -/
def Store.get (pack : List Nat) (inflate : Inflate)
    (index : Oid → Option (Nat × Nat)) (get_object : GetObject)
    (fuel : Nat) (id : Oid) : Except Err (Option (ObjectType × Reader)) :=
  match index id with
  | none => .ok none
  | some (start, end_) =>
    match read_bounds pack inflate get_object fuel start end_ with
    | .error e => .error e
    | .ok (t, stream) =>
      match t with
      | 1 => .ok (some (.commit, stream))
      | 2 => .ok (some (.tree, stream))
      | 3 => .ok (some (.blob, stream))
      | 4 => .ok (some (.tag, stream))
      | _ => .error .corruptedPackfile

/-- Modelled from the spec (§4.1): the size-contribution rule the spec
states — byte `i` of the header (0-indexed, `i ≥ 1`) contributes its 7 bits
shifted left by `4 + 7 * (i - 1)`.  This helper accumulates the tail
contributions starting at index `i`. -/
def spec_size_tail (i : Nat) : List Nat → Nat
  | [] => 0
  | s :: rest => (s <<< (4 + 7 * (i - 1))) ||| spec_size_tail (i + 1) rest

/-- Modelled from the spec (§4.1): the accumulated size is the OR of the low
4 bits of byte 0 with the shifted tail contributions. -/
def spec_size : List Nat → Nat
  | [] => 0
  | s0 :: rest => s0 ||| spec_size_tail 1 rest

/-- Modelled from the spec (§4.1/§8): the canonical header encoder is not
part of this repository; it emits the size in little-endian base-128 groups
after the first 4-bit nibble, setting the continuation bit on every byte but
the last. -/
def encode_size_tail (n : Nat) : List Nat :=
  if n < 0x80 then [n]
  else (0x80 ||| (n &&& 0x7f)) :: encode_size_tail (n >>> 7)
termination_by n
decreasing_by
  simp only [Nat.shiftRight_eq_div_pow]
  exact Nat.div_lt_self (by omega) (by norm_num)

/-- Modelled from the spec (§4.1/§8): the canonical encoder for a
`(type, size)` header: byte 0 holds the tag in bits 6–4 and the low size
nibble, with the continuation bit set exactly when more size bytes follow. -/
def encode_header (type_tag size : Nat) : List Nat :=
  if size < 0x10 then [(type_tag <<< 4) ||| size]
  else (0x80 ||| (type_tag <<< 4) ||| (size &&& 0x0f)) :: encode_size_tail (size >>> 4)

/-- Modelled from the spec (§4.3): the offset rule the spec states — while
the just-read byte's high bit is set,
`offset = ((offset + 1) << 7) + (next byte's low 7 bits)`. -/
def spec_offset_loop (offset byte : Nat) : List Nat → Option (Nat × List Nat)
  | [] =>
    if byte &&& 0x80 > 0 then none else some (offset, [])
  | b :: rest =>
    if byte &&& 0x80 > 0 then
      spec_offset_loop (((offset + 1) <<< 7) + (b &&& 0x7f)) b rest
    else some (offset, b :: rest)

/-- Modelled from the spec (§4.3): read one byte, `offset = low 7 bits`,
then run the spec's accumulation rule. -/
def spec_offset (s : List Nat) : Option (Nat × List Nat) :=
  match s with
  | [] => none
  | byte :: rest => spec_offset_loop (byte &&& 0x7f) byte rest

/-- Modelled from the spec: `crate::errors` is not under `src/`.  §7
classifies truncated streams and malformed records (the explicit
`CorruptedPackfile` returns and the unexpected-EOF a short `read_exact`
propagates) as *corrupted-archive*; §9 records that `BadLooseObject`, though
named for another code path, is also a corruption classification at its use
site.  The model's `subUnderflow` (a panic, not an error value) and
`outOfFuel` (an artifact of the model) are not corrupted-archive errors. -/
def is_corrupted_archive : Err → Bool
  | .shortRead => true
  | .corruptedPackfile => true
  | .badLooseObject => true
  | .subUnderflow => false
  | .outOfFuel => false

/-- An inflate stub that always succeeds with an empty buffer (an empty
deflate stream). -/
def infl_empty : Inflate := fun _ => ([], true)

/-- An inflate stub for a malformed compressed stream: an empty partial
buffer together with a reported failure. -/
def infl_fail : Inflate := fun _ => ([], false)

/-- A lookup callback that always reports absence. -/
def go_none : GetObject := fun _ => .ok none

/-- A lookup callback that always returns a blob with an opaque empty
stream. -/
def go_blob : GetObject := fun _ => .ok (some (.blob, .external []))

/-! ## Helper lemmas -/

/-- If every remaining byte has the continuation bit set and the loop is
still running, the header loop exhausts the bounded stream and fails with
the short-read error. -/
theorem collect_size_error_of_all_high (s : List Nat) :
    ∀ continuation size_vec, (∀ b ∈ s, b &&& 0x80 ≠ 0) → continuation ≠ 0 →
      collect_size continuation size_vec s = .error .shortRead := by
  induction s with
  | nil =>
    intro c sv _ hc
    simp [collect_size, Nat.lt_one_iff, hc]
  | cons b rest ih =>
    intro c sv hall hc
    have hb : b &&& 0x80 ≠ 0 := hall b (List.mem_cons_self b rest)
    simp only [collect_size, Nat.lt_one_iff, hc, if_false]
    exact ih (b &&& 0x80) (sv ++ [b &&& 0x7f])
      (fun x hx => hall x (List.mem_cons_of_mem b hx)) hb

/-- The `type_flag` extracted by `read_header` is a 3-bit value. -/
theorem read_header_tag_le {s : List Nat} {t size : Nat} {rest : List Nat}
    (h : read_header s = .ok (t, size, rest)) : t ≤ 7 := by
  cases s with
  | nil => simp [read_header] at h
  | cons b bs =>
    have hand : b &&& 0x70 ≤ 0x70 := Nat.and_le_right
    have hdiv : (b &&& 0x70) >>> 4 = (b &&& 0x70) / 16 := by
      simp [Nat.shiftRight_eq_div_pow]
    simp only [read_header] at h
    split at h
    · simp at h
    · split at h
      · simp at h
      · simp only [Except.ok.injEq, Prod.mk.injEq] at h
        obtain ⟨ht, -, -⟩ := h
        omega

/-! ## Claims -/

/-- Claim C1.  The claim (and §4.1) states that the decoder recovers the
size encoded by the canonical encoder, byte `i ≥ 1` contributing its 7 bits
at shift `4 + 7*(i-1)`.  The code violates this: the canonical encoding of
`(type 1, size 16)` is `[0x90, 0x01]`, whose contributions `[0x0, 0x1]`
the specified rule accumulates to 16, yet `read_header` (which pops
`size_vec` from the END and shifts by `4 + 7 * (count - len)`) decodes the
size as 1. -/
theorem c1_header_size_rule_violated :
    encode_header 1 16 = [0x90, 0x01] ∧
    spec_size [0x90 &&& 0x0f, 0x01 &&& 0x7f] = 16 ∧
    read_header [0x90, 0x01] = .ok (1, 1, []) ∧
    (1 : Nat) ≠ 16 := by
  refine ⟨?_, by decide, rfl, by decide⟩
  simp [encode_header, encode_size_tail]
  decide

/-- Claim C2.  An offset-delta record at `start = 0` whose encoded relative
offset is 1 makes `start - offset` negative: `read_bounds` commits the
`u64` underflow of line 120 (a panic in a debug build, a wrap-around and an
out-of-range read in release) instead of returning a corrupted-archive
error. -/
theorem c2_offset_underflow_not_an_error :
    read_bounds [0x60, 0x01, 0xAA, 0xBB] infl_empty go_none 2 0 4 =
      .error .subUnderflow ∧
    is_corrupted_archive .subUnderflow = false :=
  ⟨rfl, rfl⟩

/-- Claim C3.  A record whose header is truncated — the continuation bit is
set on every available byte of the record's bounded range, so it is still
set on the final one when the stream runs out — makes `read_bounds` return
the short-read failure of the checked one-byte read, classified as
corrupted-archive; the model is a total function, so it terminates and
cannot hang or panic on this input. -/
theorem c3_truncated_header_is_error (pack : List Nat) (inflate : Inflate)
    (get_object : GetObject) (fuel start end_ : Nat)
    (hall : ∀ b ∈ record_stream pack start end_, b &&& 0x80 ≠ 0) :
    read_bounds pack inflate get_object (fuel + 1) start end_ = .error .shortRead ∧
    is_corrupted_archive .shortRead = true := by
  refine ⟨?_, rfl⟩
  cases hs : record_stream pack start end_ with
  | nil => simp [read_bounds, hs, read_header]
  | cons b rest =>
    rw [hs] at hall
    have hb : b &&& 0x80 ≠ 0 := hall b (List.mem_cons_self b rest)
    have hcs := collect_size_error_of_all_high rest (b &&& 0x80) [b &&& 0x0f]
      (fun x hx => hall x (List.mem_cons_of_mem b hx)) hb
    simp [read_bounds, hs, read_header, hcs]

/-- Witness for C3: a one-byte record `[0x80]` whose only byte keeps the
continuation bit set. -/
theorem c3_truncated_header_is_error_w :
    read_bounds [0x80] infl_empty go_none 1 0 1 = .error .shortRead ∧
    is_corrupted_archive .shortRead = true :=
  c3_truncated_header_is_error [0x80] infl_empty go_none 0 0 1 (by decide)

/-- Counterexample to claim C4 as stated: the record `[0x00, 0xAA, 0xBB]`
carries the raw tag 0, which is not one of the four defined literal kinds,
yet the `0...4` dispatch arm decodes it as a literal record. -/
theorem c4_tag_zero_is_literal_cex :
    read_bounds [0x00, 0xAA, 0xBB] infl_empty go_none 1 0 3 =
      .ok (0, .deflate []) ∧
    (0 : Nat) ∉ ([1, 2, 3, 4] : List Nat) :=
  ⟨rfl, by decide⟩

/-- Claim C4, amended: the `0...4` arm treats exactly the raw tags
0, 1, 2, 3, 4 as literal records — the four defined literal kinds PLUS
tag 0.  For a record whose header decodes with tag `t` and whose remaining
bytes start with the 2-byte filter prefix, `read_bounds` returns the
literal result `(t, deflate rest)` iff `t ≤ 4`. -/
theorem c4_literal_range_amended (pack : List Nat) (inflate : Inflate)
    (get_object : GetObject) (fuel start end_ t size : Nat)
    (os zh rest : List Nat)
    (hh : read_header (record_stream pack start end_) = .ok (t, size, os))
    (hz : read_exact 2 os = .ok (zh, rest)) :
    (read_bounds pack inflate get_object (fuel + 1) start end_ =
      .ok (t, .deflate rest)) ↔ t ≤ 4 := by
  constructor
  · intro hres
    by_contra hgt
    push_neg at hgt
    have h7 := read_header_tag_le hh
    simp only [read_bounds, hh] at hres
    rw [if_neg (by omega)] at hres
    interval_cases t
    · simp [OFS_DELTA, REF_DELTA] at hres
    · norm_num [OFS_DELTA, REF_DELTA] at hres
      repeat' split at hres
      all_goals simp_all
    · norm_num [OFS_DELTA, REF_DELTA] at hres
      repeat' split at hres
      all_goals simp_all
  · intro h4
    simp only [read_bounds, hh]
    rw [if_pos h4]
    simp [hz]

/-- Witness for the amended C4: a literal record with tag 4 decodes to the
literal result. -/
theorem c4_literal_range_amended_w :
    read_bounds [0x40, 0xAA, 0xBB] infl_empty go_none 1 0 3 =
      .ok (4, .deflate []) :=
  (c4_literal_range_amended [0x40, 0xAA, 0xBB] infl_empty go_none 0 0 3 4 0
    [0xAA, 0xBB] [0xAA, 0xBB] [] rfl rfl).mpr (by decide)

/-- Claim C5.  A reference-delta record whose 20-byte base identifier the
externally supplied callback cannot resolve (`Ok(None)`) makes
`read_bounds` fail with the explicit `CorruptedPackfile` error of line 146
— corruption, not an absence result. -/
theorem c5_ref_delta_absent_base (pack : List Nat) (inflate : Inflate)
    (get_object : GetObject) (fuel start end_ size : Nat)
    (os idb s1 zh s2 : List Nat)
    (hh : read_header (record_stream pack start end_) = .ok (REF_DELTA, size, os))
    (h20 : read_exact 20 os = .ok (idb, s1))
    (h2 : read_exact 2 s1 = .ok (zh, s2))
    (habs : get_object idb = .ok none) :
    read_bounds pack inflate get_object (fuel + 1) start end_ =
      .error .corruptedPackfile := by
  simp only [read_bounds, hh]
  norm_num [OFS_DELTA, REF_DELTA]
  simp [h20, h2, habs]

/-- Witness for C5: a complete ref-delta record whose base id (20 zero
bytes) the `go_none` callback reports as absent. -/
theorem c5_ref_delta_absent_base_w :
    read_bounds
      [0x70, 0, 0, 0, 0, 0, 0, 0, 0, 0, 0, 0, 0, 0, 0, 0, 0, 0, 0, 0, 0, 0xAA, 0xBB]
      infl_empty go_none 1 0 23 = .error .corruptedPackfile :=
  c5_ref_delta_absent_base
    [0x70, 0, 0, 0, 0, 0, 0, 0, 0, 0, 0, 0, 0, 0, 0, 0, 0, 0, 0, 0, 0, 0xAA, 0xBB]
    infl_empty go_none 0 0 23 0
    [0, 0, 0, 0, 0, 0, 0, 0, 0, 0, 0, 0, 0, 0, 0, 0, 0, 0, 0, 0, 0xAA, 0xBB]
    [0, 0, 0, 0, 0, 0, 0, 0, 0, 0, 0, 0, 0, 0, 0, 0, 0, 0, 0, 0]
    [0xAA, 0xBB] [0xAA, 0xBB] [] rfl rfl rfl rfl

/-- Claim C6.  A delta record that resolves successfully reports its base's
type: an offset-delta returns exactly the type produced by the recursive
resolution at `start - offset`, and a reference-delta returns exactly the
tag of the type the lookup callback reported for the 20-byte base id. -/
theorem c6_delta_type_inherited (pack : List Nat) (inflate : Inflate)
    (get_object : GetObject) (fuel start end_ t size : Nat)
    (os : List Nat) (r : Reader) :
    (read_header (record_stream pack start end_) = .ok (OFS_DELTA, size, os) →
      read_bounds pack inflate get_object (fuel + 1) start end_ = .ok (t, r) →
      ∃ offset s1 base, read_offset os = .ok (offset, s1) ∧
        read_bounds pack inflate get_object fuel (start - offset) start =
          .ok (t, base)) ∧
    (read_header (record_stream pack start end_) = .ok (REF_DELTA, size, os) →
      read_bounds pack inflate get_object (fuel + 1) start end_ = .ok (t, r) →
      ∃ bt bs, get_object (os.take 20) = .ok (some (bt, bs)) ∧
        t = type_code bt) := by
  constructor
  · intro hh hres
    simp only [read_bounds, hh] at hres
    norm_num [OFS_DELTA, REF_DELTA] at hres
    split at hres
    · simp at hres
    rename_i offset s1 ho
    split at hres
    · simp at hres
    rename_i zh s2 h2
    split at hres
    · simp at hres
    rename_i hso
    split at hres
    · simp at hres
    rename_i bt bs hrec
    simp only [Except.ok.injEq, Prod.mk.injEq] at hres
    obtain ⟨hbt, -⟩ := hres
    exact ⟨offset, s1, bs, ho, by rw [← hbt]; exact hrec⟩
  · intro hh hres
    simp only [read_bounds, hh] at hres
    norm_num [OFS_DELTA, REF_DELTA] at hres
    split at hres
    · simp at hres
    rename_i ref_bytes s1 h20
    split at hres
    · simp at hres
    rename_i zh s2 h2
    split at hres
    · simp at hres
    · simp at hres
    rename_i bt bs hga
    simp only [Except.ok.injEq, Prod.mk.injEq] at hres
    obtain ⟨hbt, -⟩ := hres
    have hrb : ref_bytes = os.take 20 := by
      simp only [read_exact] at h20
      split at h20
      · simp only [Except.ok.injEq, Prod.mk.injEq] at h20
        exact h20.1.symm
      · simp at h20
    exact ⟨bt, bs, hrb ▸ hga, hbt.symm⟩

/-- Witness for C6 (offset-delta part): a base blob at range `[0, 3)`
followed by an offset-delta at `[3, 7)` pointing 3 bytes back; the delta
resolves to the base's type 3. -/
theorem c6_delta_type_inherited_w :
    ∃ offset s1 base,
      read_offset [0x03, 0xCC, 0xDD] = .ok (offset, s1) ∧
      read_bounds [0x30, 0xAA, 0xBB, 0x60, 0x03, 0xCC, 0xDD] infl_empty go_none 1
        (3 - offset) 3 = .ok (3, base) :=
  (c6_delta_type_inherited [0x30, 0xAA, 0xBB, 0x60, 0x03, 0xCC, 0xDD] infl_empty
    go_none 1 3 7 3 0 [0x03, 0xCC, 0xDD] (.delta [] (.deflate []))).1 rfl rfl

/-- Claim C7.  When the index has no byte range for the identifier,
`Store::get` returns `Ok(None)` — and does so for EVERY pack byte source,
i.e. without reading the pack at all. -/
theorem c7_absent_id_is_none (inflate : Inflate)
    (index : Oid → Option (Nat × Nat)) (get_object : GetObject)
    (fuel : Nat) (id : Oid) (habs : index id = none) :
    ∀ pack : List Nat, Store.get pack inflate index get_object fuel id = .ok none := by
  intro pack
  simp [Store.get, habs]

/-- Witness for C7: an empty index on an arbitrary one-byte pack. -/
theorem c7_absent_id_is_none_w :
    Store.get [0x55] infl_empty (fun _ => none) go_none 1 ([0] : List Nat) =
      .ok none :=
  c7_absent_id_is_none infl_empty (fun _ => none) go_none 1 ([0] : List Nat)
    rfl [0x55]

/-- The code's offset loop computes exactly the spec's accumulation rule. -/
theorem read_offset_loop_eq_spec (s : List Nat) :
    ∀ offset byte, read_offset_loop offset byte s =
      match spec_offset_loop offset byte s with
      | some (o, rest) => .ok (o, rest)
      | none => .error Err.shortRead := by
  induction s with
  | nil =>
    intro o b
    by_cases hb : b &&& 0x80 > 0 <;> simp [read_offset_loop, spec_offset_loop, hb]
  | cons x rest ih =>
    intro o b
    by_cases hb : b &&& 0x80 > 0
    · simp only [read_offset_loop, spec_offset_loop, hb, if_true]
      exact ih _ x
    · simp [read_offset_loop, spec_offset_loop, hb]

/-- Claim C8.  The offset decoder of the OFS_DELTA branch implements exactly
the spec's rule (`offset = low 7 bits`, then
`offset = ((offset + 1) << 7) + low 7 bits` while the high bit stays set),
and that rule is distinct from the §4.1 header-size rule: on the bytes
`[0x81, 0x01]` the offset rule yields 257 while the §4.1 size rule applied
to the same bytes' contributions yields 17. -/
theorem c8_offset_rule :
    (∀ s : List Nat, read_offset s =
      match spec_offset s with
      | some (offset, rest) => .ok (offset, rest)
      | none => .error Err.shortRead) ∧
    read_offset [0x81, 0x01] = .ok (257, []) ∧
    spec_size [0x81 &&& 0x0f, 0x01 &&& 0x7f] = 17 ∧ (257 : Nat) ≠ 17 := by
  refine ⟨?_, rfl, by decide, by decide⟩
  intro s
  cases s with
  | nil => simp [read_offset, spec_offset]
  | cons b rest =>
    simp only [read_offset, spec_offset]
    exact read_offset_loop_eq_spec rest _ b

/-- Claim C9.  The claim (and §7) states that the eager decompression of the
delta instruction buffer fails explicitly on a malformed stream.  The code
violates this: lines 118 and 137 drop the `Result` of `read_to_end`, so with
an inflate collaborator that reports failure and delivers an empty partial
buffer, `read_bounds` on a well-formed ref-delta record still returns `Ok`,
silently using the empty instruction buffer. -/
theorem c9_inflate_failure_ignored :
    (infl_fail []).2 = false ∧
    read_bounds
      [0x70, 0, 0, 0, 0, 0, 0, 0, 0, 0, 0, 0, 0, 0, 0, 0, 0, 0, 0, 0, 0, 0xAA, 0xBB]
      infl_fail go_blob 1 0 23 = .ok (3, .delta [] (.external [])) :=
  ⟨rfl, rfl⟩

/-- Claim C10.  Whatever raw tag `read_bounds` reports, `Store::get` maps
only 1, 2, 3, 4 to a public object type; any other surviving tag (tag 0
included, which the literal dispatch accepts) becomes the
`CorruptedPackfile` error, so a successful `get` can only carry one of the
four public types. -/
theorem c10_out_of_range_tag_is_corrupted (pack : List Nat) (inflate : Inflate)
    (index : Oid → Option (Nat × Nat)) (get_object : GetObject)
    (fuel : Nat) (id : Oid) (start end_ t : Nat) (r : Reader)
    (hidx : index id = some (start, end_))
    (hrb : read_bounds pack inflate get_object fuel start end_ = .ok (t, r))
    (ht : ¬(1 ≤ t ∧ t ≤ 4)) :
    Store.get pack inflate index get_object fuel id = .error .corruptedPackfile := by
  simp only [Store.get, hidx, hrb]
  rcases Nat.lt_or_ge t 5 with h5 | h5
  · have ht0 : t = 0 := by omega
    subst ht0
    rfl
  · obtain ⟨n, rfl⟩ : ∃ n, t = n + 5 := ⟨t - 5, by omega⟩
    rfl

/-- Witness for C10: a record with raw tag 0 survives `read_bounds` as a
literal, and `Store::get` turns it into `CorruptedPackfile`. -/
theorem c10_out_of_range_tag_is_corrupted_w :
    Store.get [0x00, 0xAA, 0xBB] infl_empty (fun _ => some (0, 3)) go_none 1
      ([] : List Nat) = .error .corruptedPackfile :=
  c10_out_of_range_tag_is_corrupted [0x00, 0xAA, 0xBB] infl_empty
    (fun _ => some (0, 3)) go_none 1 ([] : List Nat) 0 3 0 (.deflate [])
    rfl rfl (by decide)

end GitRs
